import Mathlib

/-!
Shallow embedding of the firmware core of the InsideRide rollers
Qubo-to-FTMS bridge: the calibration lookup engine (sensors.cpp),
the calibration store (calibration.cpp) and the stepper motion
controller (stepper_control.cpp).

Modelling conventions:
- C doubles and floats are modelled as exact rationals; rounding of
  binary floating point is not modelled.
- uint32 timestamps (millis, micros) are modelled as naturals and the
  wraparound subtraction now minus before is made explicit by wsub.
- int32 quantities are modelled as unbounded integers; the firmware
  keeps every such quantity far from the 32-bit boundary.
- hardware writes (digitalWrite, delay, pulse generation) have no
  effect on the modelled state and are dropped.
-/

/-- modulus of uint32 arithmetic. -/
def U32 : Nat := 4294967296

/-- uint32 subtraction a - b with wraparound, a the later timestamp. -/
def wsub (a b : Nat) : Nat := (a + U32 - b % U32) % U32

/-- config.h LOGICAL_MIN. -/
def LOGICAL_MIN : Int := 0

/-- config.h LOGICAL_MAX. -/
def LOGICAL_MAX : Int := 1000

/-- config.h PHYS_MIN_STEPS. -/
def PHYS_MIN_STEPS : Int := 0

/-- config.h PHYS_MAX_STEPS (870 * 8). -/
def PHYS_MAX_STEPS : Int := 6960

/-- Arduino constrain macro at integer type:
amt lt low gives low, amt gt high gives high, else amt. -/
def constrainI (x lo hi : Int) : Int := if x < lo then lo else if hi < x then hi else x

/-- Arduino constrain macro at rational (double/float) type. -/
def constrainQ (x lo hi : ℚ) : ℚ := if x < lo then lo else if hi < x then hi else x

/-- stepper_control.cpp logicalToSteps: clamp to [LOGICAL_MIN, LOGICAL_MAX],
then logical * PHYS_MAX_STEPS / LOGICAL_MAX in integer division.  After the
clamp both operands are nonnegative, so Lean integer division agrees with
the C truncating division. -/
def logicalToSteps (logical : Int) : Int :=
  constrainI logical LOGICAL_MIN LOGICAL_MAX * PHYS_MAX_STEPS / LOGICAL_MAX

/-- stepper_control.cpp stepsToLogical: clamp to [PHYS_MIN_STEPS, PHYS_MAX_STEPS],
then steps * LOGICAL_MAX / PHYS_MAX_STEPS in integer division. -/
def stepsToLogical (steps : Int) : Int :=
  constrainI steps PHYS_MIN_STEPS PHYS_MAX_STEPS * LOGICAL_MAX / PHYS_MAX_STEPS

/-- sensors.cpp X: speed grid (mph) of the power table, 7 entries. -/
def X : Nat → ℚ
  | 0 => 0 | 1 => 5 | 2 => 10 | 3 => 15 | 4 => 20 | 5 => 25 | 6 => 50
  | _ => 0

/-- sensors.cpp Y: position grid (logical units) of the power table, 5 entries. -/
def Y : Nat → ℚ
  | 0 => 0 | 1 => 250 | 2 => 500 | 3 => 750 | 4 => 1000
  | _ => 0

/-- sensors.cpp Xw: speed grid (mph) of the ERG table, 7 entries. -/
def Xw : Nat → ℚ
  | 0 => 0 | 1 => 5 | 2 => 10 | 3 => 15 | 4 => 20 | 5 => 25 | 6 => 50
  | _ => 0

/-- sensors.cpp Yw: power grid (watts) of the ERG table, 9 entries. -/
def Yw : Nat → ℚ
  | 0 => 0 | 1 => 100 | 2 => 150 | 3 => 200 | 4 => 250 | 5 => 300 | 6 => 400
  | 7 => 600 | 8 => 1000
  | _ => 0

/-- sensors.cpp Xstep: speed grid (mph) of the SIM table, 8 entries. -/
def Xstep : Nat → ℚ
  | 0 => 0 | 1 => 5 | 2 => 10 | 3 => 15 | 4 => 20 | 5 => 25 | 6 => 30 | 7 => 50
  | _ => 0

/-- sensors.cpp Ystep: grade grid (percent) of the SIM table, 7 entries. -/
def Ystep : Nat → ℚ
  | 0 => -4 | 1 => 0 | 2 => 2 | 3 => 4 | 4 => 6 | 5 => 8 | 6 => 10
  | _ => 0

/-- sensors.cpp initial value of Z, the power calibration table
[speed][position] = watts, 7 x 5.  Row 0 (0 mph) is all zeros and is
covered by the final catch-all case, as are out-of-bounds indices. -/
def Zinit : Nat → Nat → ℚ
  | 1, 0 => 52  | 1, 1 => 68   | 1, 2 => 80   | 1, 3 => 102  | 1, 4 => 124
  | 2, 0 => 117 | 2, 1 => 143  | 2, 2 => 217  | 2, 3 => 280  | 2, 4 => 343
  | 3, 0 => 188 | 3, 1 => 246  | 3, 2 => 383  | 3, 3 => 490  | 3, 4 => 597
  | 4, 0 => 265 | 4, 1 => 380  | 4, 2 => 580  | 4, 3 => 732  | 4, 4 => 884
  | 5, 0 => 349 | 5, 1 => 544  | 5, 2 => 806  | 5, 3 => 1006 | 5, 4 => 1206
  | 6, 0 => 861 | 6, 1 => 1806 | 6, 2 => 2388 | 6, 3 => 2856 | 6, 4 => 3324
  | _, _ => 0

/-- sensors.cpp initial value of Zw, the ERG table
[speed][power] = position, 7 x 9.  Zero entries (all of row 0, the
lower-left triangle) are covered by the final catch-all case. -/
def Zwinit : Nat → Nat → ℚ
  | 1, 1 => 739 | 1, 2 => 1000 | 1, 3 => 1000 | 1, 4 => 1000 | 1, 5 => 1000
  | 1, 6 => 1000 | 1, 7 => 1000 | 1, 8 => 1000
  | 2, 2 => 212 | 2, 3 => 442 | 2, 4 => 651 | 2, 5 => 841 | 2, 6 => 1000
  | 2, 7 => 1000 | 2, 8 => 1000
  | 3, 3 => 70 | 3, 4 => 198 | 3, 5 => 322 | 3, 6 => 560 | 3, 7 => 996
  | 3, 8 => 1000
  | 4, 5 => 79 | 4, 6 => 238 | 4, 7 => 552 | 4, 8 => 1000
  | 5, 6 => 67 | 5, 7 => 285 | 5, 8 => 745
  | 6, 8 => 26
  | _, _ => 0

/-- sensors.cpp initial value of Zstep, the SIM table
[speed][grade] = position, 8 x 7. -/
def Zstepinit : Nat → Nat → ℚ
  | 0, 0 => 0 | 0, 1 => 167 | 0, 2 => 333 | 0, 3 => 500 | 0, 4 => 667 | 0, 5 => 833 | 0, 6 => 1000
  | 1, 0 => 0 | 1, 1 => 167 | 1, 2 => 333 | 1, 3 => 500 | 1, 4 => 667 | 1, 5 => 833 | 1, 6 => 1000
  | 2, 0 => 0 | 2, 1 => 167 | 2, 2 => 333 | 2, 3 => 500 | 2, 4 => 667 | 2, 5 => 833 | 2, 6 => 1000
  | 3, 0 => 0 | 3, 1 => 167 | 3, 2 => 333 | 3, 3 => 500 | 3, 4 => 667 | 3, 5 => 833 | 3, 6 => 1000
  | 4, 0 => 0 | 4, 1 => 167 | 4, 2 => 333 | 4, 3 => 500 | 4, 4 => 667 | 4, 5 => 833 | 4, 6 => 1000
  | 5, 0 => 167 | 5, 1 => 333 | 5, 2 => 500 | 5, 3 => 677 | 5, 4 => 834 | 5, 5 => 1000 | 5, 6 => 1000
  | 6, 0 => 333 | 6, 1 => 500 | 6, 2 => 677 | 6, 3 => 834 | 6, 4 => 1000 | 6, 5 => 1000 | 6, 6 => 1000
  | 7, 0 => 500 | 7, 1 => 500 | 7, 2 => 677 | 7, 3 => 834 | 7, 4 => 1000 | 7, 5 => 1000 | 7, 6 => 1000
  | _, _ => 0

/-- The mutable table state of the program: the file-private lookup tables
of sensors.cpp (Z, Zw, Zstep) and the web-editable tables declared in
sensors.h and edited by calibration.cpp (gPowerTable, gErgTable, gSimTable). -/
structure Tables where
  Z : Nat → Nat → ℚ
  Zw : Nat → Nat → ℚ
  Zstep : Nat → Nat → ℚ
  gPowerTable : Nat → Nat → ℚ
  gErgTable : Nat → Nat → ℚ
  gSimTable : Nat → Nat → ℚ

/-- State of the tables at boot: Z, Zw, Zstep hold their sensors.cpp
initializers; the g tables hold the identical calibration.cpp defaults. -/
def initTables : Tables :=
  { Z := Zinit, Zw := Zwinit, Zstep := Zstepinit,
    gPowerTable := Zinit, gErgTable := Zwinit, gSimTable := Zstepinit }

/-- The backward index scan shared by the three lookup functions:
for i from n downto 1, return the first i with ax i le x; default 0.
In the source, n is Xcount - 2 and the scan also tests index 0, but a
failed test at index 0 leaves the initializer 0, so the result agrees. -/
def scanIdx (ax : Nat → ℚ) (x : ℚ) : Nat → Nat
  | 0 => 0
  | i + 1 => if ax (i + 1) ≤ x then i + 1 else scanIdx ax x i

/-- The bilinear interpolation formula of sensors.cpp on the cell with
lower-left grid indices (xi, yi): interpolate in x at rows yi and yi+1,
then interpolate the two results in y. -/
def cellInterp (ax ay : Nat → ℚ) (z : Nat → Nat → ℚ) (xi yi : Nat) (x y : ℚ) : ℚ :=
  ((ay (yi + 1) - y) / (ay (yi + 1) - ay yi)) *
      (((ax (xi + 1) - x) / (ax (xi + 1) - ax xi)) * z xi yi +
       ((x - ax xi) / (ax (xi + 1) - ax xi)) * z (xi + 1) yi) +
  ((y - ay yi) / (ay (yi + 1) - ay yi)) *
      (((ax (xi + 1) - x) / (ax (xi + 1) - ax xi)) * z xi (yi + 1) +
       ((x - ax xi) / (ax (xi + 1) - ax xi)) * z (xi + 1) (yi + 1))

/-- Bilinear lookup on a nx x ny table: locate the cell by the backward
scans (starting at nx - 2 and ny - 2 as in the source loops), then apply
the interpolation formula. -/
def bilin (ax ay : Nat → ℚ) (z : Nat → Nat → ℚ) (nx ny : Nat) (x y : ℚ) : ℚ :=
  cellInterp ax ay z (scanIdx ax x (nx - 2)) (scanIdx ay y (ny - 2)) x y

/-- sensors.cpp powerFromSpeedPos: out-of-range speed or position returns 0,
otherwise bilinear lookup in Z over axes X (7 entries) and Y (5 entries). -/
def powerFromSpeedPos (s : Tables) (speedMph posLogical : ℚ) : ℚ :=
  if speedMph < X 0 ∨ X 6 < speedMph then 0
  else if posLogical < Y 0 ∨ Y 4 < posLogical then 0
  else bilin X Y s.Z 7 5 speedMph posLogical

/-- sensors.cpp stepFromPowerSpeed: out-of-range speed or target watts
returns 0, otherwise bilinear lookup in Zw over Xw (7) and Yw (9). -/
def stepFromPowerSpeed (s : Tables) (speedMph targetWatts : ℚ) : ℚ :=
  if speedMph < Xw 0 ∨ Xw 6 < speedMph then 0
  else if targetWatts < Yw 0 ∨ Yw 8 < targetWatts then 0
  else bilin Xw Yw s.Zw 7 9 speedMph targetWatts

/-- sensors.cpp gradeToSteps: out-of-range speed returns the mid position
500; out-of-range grade is clamped into the grade axis range and the
bilinear lookup in Zstep over Xstep (8) and Ystep (7) proceeds. -/
def gradeToSteps (s : Tables) (speedMph gradePercent : ℚ) : ℚ :=
  if speedMph < Xstep 0 ∨ Xstep 7 < speedMph then 500
  else
    bilin Xstep Ystep s.Zstep 8 7 speedMph
      (if gradePercent < Ystep 0 ∨ Ystep 6 < gradePercent
       then constrainQ gradePercent (Ystep 0) (Ystep 6)
       else gradePercent)

/-- calibration.cpp DEFAULT_POWER_TABLE: numerically identical to the
sensors.cpp initializer of Z. -/
def DEFAULT_POWER_TABLE : Nat → Nat → ℚ := Zinit

/-- calibration.cpp DEFAULT_ERG_TABLE: identical to the initializer of Zw. -/
def DEFAULT_ERG_TABLE : Nat → Nat → ℚ := Zwinit

/-- calibration.cpp DEFAULT_SIM_TABLE: identical to the initializer of Zstep. -/
def DEFAULT_SIM_TABLE : Nat → Nat → ℚ := Zstepinit

/-- calibration.cpp powerTableSet: bounds-checked single cell write into
gPowerTable (7 rows x 5 cols); out-of-bounds indices are ignored. -/
def powerTableSet (row col : Int) (v : ℚ) (s : Tables) : Tables :=
  if 0 ≤ row ∧ row < 7 ∧ 0 ≤ col ∧ col < 5 then
    { s with gPowerTable := fun r c =>
        if r = row.toNat ∧ c = col.toNat then v else s.gPowerTable r c }
  else s

/-- calibration.cpp powerTableReset: copy DEFAULT_POWER_TABLE into every
in-bounds cell of gPowerTable (the NVS write has no modelled effect). -/
def powerTableReset (s : Tables) : Tables :=
  { s with gPowerTable := fun r c =>
      if r < 7 ∧ c < 5 then DEFAULT_POWER_TABLE r c else s.gPowerTable r c }

/-- calibration.cpp ergTableSet (7 rows x 9 cols). -/
def ergTableSet (row col : Int) (v : ℚ) (s : Tables) : Tables :=
  if 0 ≤ row ∧ row < 7 ∧ 0 ≤ col ∧ col < 9 then
    { s with gErgTable := fun r c =>
        if r = row.toNat ∧ c = col.toNat then v else s.gErgTable r c }
  else s

/-- calibration.cpp ergTableReset. -/
def ergTableReset (s : Tables) : Tables :=
  { s with gErgTable := fun r c =>
      if r < 7 ∧ c < 9 then DEFAULT_ERG_TABLE r c else s.gErgTable r c }

/-- calibration.cpp simTableSet (8 rows x 7 cols). -/
def simTableSet (row col : Int) (v : ℚ) (s : Tables) : Tables :=
  if 0 ≤ row ∧ row < 8 ∧ 0 ≤ col ∧ col < 7 then
    { s with gSimTable := fun r c =>
        if r = row.toNat ∧ c = col.toNat then v else s.gSimTable r c }
  else s

/-- calibration.cpp simTableReset (8 rows x 7 cols). -/
def simTableReset (s : Tables) : Tables :=
  { s with gSimTable := fun r c =>
      if r < 8 ∧ c < 7 then DEFAULT_SIM_TABLE r c else s.gSimTable r c }

/-- calibration.cpp calibrationTablesLoad: each table whose stored NVS blob
exists with matching size is overwritten wholesale; the blob contents are
modelled as optional table values. -/
def calibrationTablesLoad (pt et st : Option (Nat → Nat → ℚ)) (s : Tables) : Tables :=
  let s1 := match pt with
    | some t => { s with gPowerTable := t }
    | none => s
  let s2 := match et with
    | some t => { s1 with gErgTable := t }
    | none => s1
  match st with
    | some t => { s2 with gSimTable := t }
    | none => s2

/-- One table-store operation of calibration.cpp: a cell edit, a reset to
defaults, or a load from persistent storage. -/
inductive CalOp where
  | powerSet (row col : Int) (v : ℚ)
  | powerReset
  | ergSet (row col : Int) (v : ℚ)
  | ergReset
  | simSet (row col : Int) (v : ℚ)
  | simReset
  | tablesLoad (pt et st : Option (Nat → Nat → ℚ))

/-- Apply one calibration table operation to the table state. -/
def applyCalOp (s : Tables) : CalOp → Tables
  | CalOp.powerSet row col v => powerTableSet row col v s
  | CalOp.powerReset => powerTableReset s
  | CalOp.ergSet row col v => ergTableSet row col v s
  | CalOp.ergReset => ergTableReset s
  | CalOp.simSet row col v => simTableSet row col v s
  | CalOp.simReset => simTableReset s
  | CalOp.tablesLoad pt et st => calibrationTablesLoad pt et st s

/-- Apply a sequence of calibration table operations in order. -/
def applyCalOps (s : Tables) : List CalOp → Tables
  | [] => s
  | o :: rest => applyCalOps (applyCalOp s o) rest

/-- The four idle curve coefficients of calibration.cpp
(gIdleCurveA, gIdleCurveB, gIdleCurveC, gIdleCurveD). -/
structure IdleCurve where
  a : ℚ
  b : ℚ
  c : ℚ
  d : ℚ

/-- C lroundf: round to nearest integer, halves away from zero. -/
def lroundQ (x : ℚ) : Int := if x < 0 then -⌊-x + 1 / 2⌋ else ⌊x + 1 / 2⌋

/-- calibration.cpp idlePositionFromSpeed: clamp speed to [0, 50] mph,
evaluate the cubic a + b v + c v^2 + d v^3, round to nearest and clamp
the result to [LOGICAL_MIN, LOGICAL_MAX]. -/
def idlePositionFromSpeed (k : IdleCurve) (speedMph : ℚ) : Int :=
  constrainI
    (lroundQ (k.a + k.b * constrainQ speedMph 0 50
        + k.c * constrainQ speedMph 0 50 * constrainQ speedMph 0 50
        + k.d * constrainQ speedMph 0 50 * constrainQ speedMph 0 50 * constrainQ speedMph 0 50))
    LOGICAL_MIN LOGICAL_MAX

/-- stepper_control.cpp rampStartSps (900 steps per second, never reassigned). -/
def rampStartSps : ℚ := 900

/-- stepper_control.cpp rampAccelSps2 (6000 steps per second squared). -/
def rampAccelSps2 : ℚ := 6000

/-- stepper_control.cpp slowZoneSteps (200 logical units, never reassigned). -/
def slowZoneSteps : Int := 200

/-- stepper_control.cpp slowZoneSps (1000 steps per second, never reassigned). -/
def slowZoneSps : ℚ := 1000

/-- stepper_control.cpp jogSpeedSps = HOMING_SPEED_SPS (800, never reassigned). -/
def jogSpeedSps : ℚ := 800

/-- config.h DEFAULT_STEP_SPEED_SPS. -/
def DEFAULT_STEP_SPEED_SPS : ℚ := 2500

/-- stepper_control.cpp STEP_ON_DEADBAND_LOG. -/
def STEP_ON_DEADBAND_LOG : Nat := 12

/-- stepper_control.cpp STEP_OFF_DEADBAND_LOG. -/
def STEP_OFF_DEADBAND_LOG : Nat := 6

/-- stepper_control.cpp STEP_IDLE_OFF_MS. -/
def STEP_IDLE_OFF_MS : Nat := 1500

/-- stepper_control.cpp LIMIT_DEBOUNCE_MS. -/
def LIMIT_DEBOUNCE_MS : Nat := 8

/-- The mutable state of stepper_control.cpp touched by the motion
controller: positions and targets, the homing and enable flags, the
settle timer, direction tracking, the soft ramp, and the limit-switch
debounce registers.  Limit levels are Bool with true = HIGH = released
(the switch pulls the pin to ground when pressed). -/
structure St where
  logStepPos : Int
  logStepTarget : Int
  physStepPos : Int
  physStepTarget : Int
  gIsHoming : Bool
  gRehomeRequested : Bool
  gStepEn : Bool
  gSettledSinceMs : Nat
  gLastDir : Int
  gDirJustChanged : Bool
  rampCurSps : ℚ
  rampLastUs : Nat
  runSpeedSps : ℚ
  stepSpeedSps : ℚ
  stepIntervalUs : Nat
  lastStepUs : Nat
  gLimitStable : Bool
  gLimitRawLast : Bool
  gLimitLastChangeMs : Nat

/-- stepper_control.cpp spsToIntervalUs: clamp the rate to [50, 5000] and
return 1000000 / sps + 0.5 truncated to uint32 (floor, value positive). -/
def spsToIntervalUs (sps : ℚ) : Nat :=
  (⌊1000000 / constrainQ sps 50 5000 + 1 / 2⌋).toNat

/-- stepper_control.cpp updateLimitDebounce: a raw level change restarts
the debounce clock; an unchanged level held at least LIMIT_DEBOUNCE_MS
becomes the stable level. -/
def updateLimitDebounce (raw : Bool) (nowMs : Nat) (s : St) : St :=
  if raw ≠ s.gLimitRawLast then
    { s with gLimitRawLast := raw, gLimitLastChangeMs := nowMs }
  else if LIMIT_DEBOUNCE_MS ≤ wsub nowMs s.gLimitLastChangeMs then
    { s with gLimitStable := raw }
  else s

/-- stepper_control.cpp limitPressed: stable level LOW. -/
def limitPressed (s : St) : Bool := s.gLimitStable = false

/-- stepper_control.cpp stepperEnable: record the flag (the enable pin
write is hardware); on enable, reset direction tracking and restart the
ramp at min(rampStartSps, runSpeedSps) with a fresh timer. -/
def stepperEnable (en : Bool) (nowUs : Nat) (s : St) : St :=
  if en then
    { s with gStepEn := en, gLastDir := 0,
             rampCurSps := min rampStartSps s.runSpeedSps,
             rampLastUs := nowUs, lastStepUs := 0 }
  else { s with gStepEn := en }

/-- stepper_control.cpp stepperSetSpeed: clamp to [50, 4000] and set the
run speed, the step speed and the derived step interval. -/
def stepperSetSpeed (sps : ℚ) (s : St) : St :=
  { s with runSpeedSps := constrainQ sps 50 4000,
           stepSpeedSps := constrainQ sps 50 4000,
           stepIntervalUs := spsToIntervalUs (constrainQ sps 50 4000) }

/-- stepper_control.cpp updateStepperEnableFromError.  nowMs is the millis
reading, nowUs the micros reading used by a nested stepperEnable call.
While homing or rehome-pending the motor is forced on and the settle
timer cleared.  Disabled: enable at error ge STEP_ON_DEADBAND_LOG.
Enabled: within STEP_OFF_DEADBAND_LOG start (or keep) the settle timer
and disable after STEP_IDLE_OFF_MS; outside it clear the timer. -/
def updateStepperEnableFromError (nowMs nowUs : Nat) (s : St) : St :=
  if s.gIsHoming ∨ s.gRehomeRequested then
    if s.gStepEn then { s with gSettledSinceMs := 0 }
    else { stepperEnable true nowUs s with gSettledSinceMs := 0 }
  else
    if s.gStepEn then
      if (s.logStepTarget - s.logStepPos).natAbs ≤ STEP_OFF_DEADBAND_LOG then
        if s.gSettledSinceMs = 0 then
          if STEP_IDLE_OFF_MS ≤ wsub nowMs nowMs then
            { stepperEnable false nowUs { s with gSettledSinceMs := nowMs } with
              gSettledSinceMs := 0 }
          else { s with gSettledSinceMs := nowMs }
        else
          if STEP_IDLE_OFF_MS ≤ wsub nowMs s.gSettledSinceMs then
            { stepperEnable false nowUs s with gSettledSinceMs := 0 }
          else s
      else { s with gSettledSinceMs := 0 }
    else
      if STEP_ON_DEADBAND_LOG ≤ (s.logStepTarget - s.logStepPos).natAbs then
        { stepperEnable true nowUs s with gSettledSinceMs := 0 }
      else s

/-- The soft-ramp section of stepperUpdate: while a direction change is
pending or the ramp speed is below the target rate, advance the ramp by
rampAccelSps2 times the elapsed seconds since the last ramp update,
clamp at the target (clearing the pending flag), and rederive the step
interval. -/
def stepperRamp (nowUs : Nat) (targetSps : ℚ) (s : St) : St :=
  if s.gDirJustChanged ∨ s.rampCurSps < targetSps then
    let r0 : ℚ := s.rampCurSps + rampAccelSps2 * ((wsub nowUs s.rampLastUs : ℚ) / 1000000)
    if targetSps ≤ r0 then
      { s with rampLastUs := nowUs, rampCurSps := targetSps, gDirJustChanged := false,
               stepIntervalUs := spsToIntervalUs targetSps }
    else
      { s with rampLastUs := nowUs, rampCurSps := r0,
               stepIntervalUs := spsToIntervalUs r0 }
  else s

/-- The step-issue section of stepperUpdate: if the step interval has
elapsed (or no step was taken since enable), record the step time, move
the physical position by one step in curDir, rederive the logical
position from the unclamped physical position (the source derives it
before clamping; stepsToLogical clamps internally), then clamp the
physical position to the travel limits. -/
def stepperStep (curDir : Int) (nowUs : Nat) (s : St) : St :=
  if s.lastStepUs = 0 ∨ s.stepIntervalUs ≤ wsub nowUs s.lastStepUs then
    let phys1 : Int := if 0 < curDir then s.physStepPos + 1 else s.physStepPos - 1
    { s with lastStepUs := nowUs,
             logStepPos := stepsToLogical phys1,
             physStepPos := constrainI phys1 PHYS_MIN_STEPS PHYS_MAX_STEPS }
  else s

/-- stepper_control.cpp stepperUpdate.  One cooperative control-loop
iteration: debounce, enable policy, then (when enabled and off target)
direction handling with soft ramp reset on reversal, slow zone and ramp
speed selection, and at most one step with position update and clamping.
The raw limit level and the millis and micros readings are inputs; the
several micros() calls of one iteration are modelled as the single
value nowUs. -/
def stepperUpdate (raw : Bool) (nowMs nowUs : Nat) (s0 : St) : St :=
  let s1 := updateStepperEnableFromError nowMs nowUs (updateLimitDebounce raw nowMs s0)
  if ¬ s1.gStepEn then s1
  else
    let err : Int := s1.logStepTarget - s1.logStepPos
    if err = 0 then s1
    else
      let curDir : Int := if 0 < err then 1 else -1
      let s2 :=
        if curDir ≠ s1.gLastDir ∧ s1.gLastDir ≠ 0 then
          { s1 with gDirJustChanged := true, rampCurSps := rampStartSps,
                    rampLastUs := nowUs, gLastDir := curDir }
        else { s1 with gLastDir := curDir }
      let targetSps : ℚ := if err.natAbs ≤ slowZoneSteps.natAbs then slowZoneSps
                           else s2.runSpeedSps
      stepperStep curDir nowUs (stepperRamp nowUs targetSps s2)

/-- The back-off loop of stepperHome: while the (debounced) limit reads
pressed and time remains, keep pulsing away; each iteration advances the
poll index; the 2 s timeout is modelled as fuel.  Returns the poll index
at which the loop stopped. -/
def homeBackoffLoop (pressed : Nat → Bool) : Nat → Nat → Nat
  | k, 0 => k
  | k, fuel + 1 => if pressed k then homeBackoffLoop pressed (k + 1) fuel else k

/-- The seek loop of stepperHome: while the limit is not pressed and time
remains, keep pulsing toward the switch; the 10 s timeout is fuel. -/
def homeSeekLoop (pressed : Nat → Bool) : Nat → Nat → Nat
  | k, 0 => k
  | k, fuel + 1 => if pressed k then k else homeSeekLoop pressed (k + 1) fuel

/-- stepper_control.cpp stepperHome.  The debounced limit switch readings
are modelled as the oracle pressed, sampled at successive poll indices
(each updateLimitDebounce call inside the blocking loops is one poll);
the millis-based loop timeouts are modelled as fuel, and nowUs is the
micros value seen by stepperEnable.  Step pulses during homing move the
carriage physically but never touch the position variables; on the seek
timeout the function clears gIsHoming and returns, with the success
block (position redefinition to PHYS_MIN_STEPS and run speed restore)
skipped. -/
def stepperHome (pressed : Nat → Bool) (nowUs : Nat) (backFuel seekFuel : Nat) (s0 : St) : St :=
  let s1 := stepperSetSpeed jogSpeedSps (stepperEnable true nowUs { s0 with gIsHoming := true })
  let k0 : Nat := 30
  let k1 := if pressed k0 then homeBackoffLoop pressed k0 backFuel else k0
  let k2 := homeSeekLoop pressed k1 seekFuel
  if ¬ pressed k2 then { s1 with gIsHoming := false }
  else
    let s2 := { s1 with physStepPos := PHYS_MIN_STEPS,
                        logStepPos := stepsToLogical PHYS_MIN_STEPS }
    let s3 := { s2 with logStepTarget := s2.logStepPos, physStepTarget := s2.physStepPos }
    { stepperSetSpeed s3.runSpeedSps s3 with gIsHoming := false, gRehomeRequested := false }

/-- The environment of the enable/disable policy between two of its runs:
the rest of the loop writes the externally resolved target and the
observed position into the state. -/
def envWrite (tgtv posv : Int) (u : St) : St :=
  { u with logStepTarget := tgtv, logStepPos := posv }

/-- Iterated runs of the enable/disable policy of stepper_control.cpp:
before iteration n the environment writes target tgt n and position
pos n; then updateStepperEnableFromError runs at millis reading tms n
(the micros reading, only stored into ramp fields, is passed the same
value). -/
def runEnableN (tgt pos : Nat → Int) (tms : Nat → Nat) (s : St) : Nat → St
  | 0 => s
  | n + 1 => updateStepperEnableFromError (tms n) (tms n)
      (envWrite (tgt n) (pos n) (runEnableN tgt pos tms s n))

/-- A concrete stepper state used by the witness theorems. -/
def st0 : St :=
  { logStepPos := 100, logStepTarget := 300, physStepPos := 696, physStepTarget := 2088,
    gIsHoming := false, gRehomeRequested := false, gStepEn := false, gSettledSinceMs := 0,
    gLastDir := 0, gDirJustChanged := false, rampCurSps := 900, rampLastUs := 0,
    runSpeedSps := 2500, stepSpeedSps := 2500, stepIntervalUs := 400, lastStepUs := 0,
    gLimitStable := true, gLimitRawLast := true, gLimitLastChangeMs := 0 }

lemma constrainI_range (x lo hi : Int) (h : lo ≤ hi) :
    lo ≤ constrainI x lo hi ∧ constrainI x lo hi ≤ hi := by
  unfold constrainI; split_ifs <;> omega

lemma constrainQ_eq_self (x lo hi : ℚ) (h1 : lo ≤ x) (h2 : x ≤ hi) :
    constrainQ x lo hi = x := by
  unfold constrainQ
  rw [if_neg (not_lt.mpr h1), if_neg (not_lt.mpr h2)]

lemma applyCalOp_static (s : Tables) (o : CalOp) :
    (applyCalOp s o).Z = s.Z ∧ (applyCalOp s o).Zw = s.Zw ∧
    (applyCalOp s o).Zstep = s.Zstep := by
  cases o with
  | powerSet row col v =>
      simp only [applyCalOp, powerTableSet]; split_ifs <;> exact ⟨rfl, rfl, rfl⟩
  | powerReset => exact ⟨rfl, rfl, rfl⟩
  | ergSet row col v =>
      simp only [applyCalOp, ergTableSet]; split_ifs <;> exact ⟨rfl, rfl, rfl⟩
  | ergReset => exact ⟨rfl, rfl, rfl⟩
  | simSet row col v =>
      simp only [applyCalOp, simTableSet]; split_ifs <;> exact ⟨rfl, rfl, rfl⟩
  | simReset => exact ⟨rfl, rfl, rfl⟩
  | tablesLoad pt et st =>
      simp only [applyCalOp, calibrationTablesLoad]
      cases pt <;> cases et <;> cases st <;> exact ⟨rfl, rfl, rfl⟩

lemma applyCalOps_static (s : Tables) (ops : List CalOp) :
    (applyCalOps s ops).Z = s.Z ∧ (applyCalOps s ops).Zw = s.Zw ∧
    (applyCalOps s ops).Zstep = s.Zstep := by
  induction ops generalizing s with
  | nil => exact ⟨rfl, rfl, rfl⟩
  | cons o rest ih =>
      obtain ⟨h1, h2, h3⟩ := applyCalOp_static s o
      obtain ⟨g1, g2, g3⟩ := ih (applyCalOp s o)
      exact ⟨by rw [applyCalOps, g1, h1], by rw [applyCalOps, g2, h2],
             by rw [applyCalOps, g3, h3]⟩

/-- C3: the bilinear lookup functions read only the file-private tables
Z, Zw, Zstep of sensors.cpp, which no table-edit, reset or load operation
of calibration.cpp ever writes (those touch only gPowerTable, gErgTable,
gSimTable), so after any sequence of such operations every lookup returns
the same value as with no edit at all. -/
theorem C3_lookup_edit_independent (s : Tables) (ops : List CalOp) (v p w g : ℚ) :
    powerFromSpeedPos (applyCalOps s ops) v p = powerFromSpeedPos s v p ∧
    stepFromPowerSpeed (applyCalOps s ops) v w = stepFromPowerSpeed s v w ∧
    gradeToSteps (applyCalOps s ops) v g = gradeToSteps s v g := by
  obtain ⟨h1, h2, h3⟩ := applyCalOps_static s ops
  refine ⟨?_, ?_, ?_⟩ <;>
    simp only [powerFromSpeedPos, stepFromPowerSpeed, gradeToSteps, bilin, h1, h2, h3]

/-- C2: if during stepperHome the limit switch never reads pressed, the
seek loop times out and the function returns with gIsHoming cleared,
all four position variables untouched, and the motor still enabled. -/
theorem C2_homing_timeout_aborts (pressed : Nat → Bool) (nowUs backFuel seekFuel : Nat)
    (s : St) (hnever : ∀ k, pressed k = false) :
    (stepperHome pressed nowUs backFuel seekFuel s).gIsHoming = false ∧
    (stepperHome pressed nowUs backFuel seekFuel s).physStepPos = s.physStepPos ∧
    (stepperHome pressed nowUs backFuel seekFuel s).logStepPos = s.logStepPos ∧
    (stepperHome pressed nowUs backFuel seekFuel s).logStepTarget = s.logStepTarget ∧
    (stepperHome pressed nowUs backFuel seekFuel s).physStepTarget = s.physStepTarget ∧
    (stepperHome pressed nowUs backFuel seekFuel s).gStepEn = true := by
  simp [stepperHome, hnever, stepperSetSpeed, stepperEnable]

/-- C2 witness: a concrete run of stepperHome with a never-pressed limit
switch, instantiating the timeout theorem. -/
theorem C2_homing_timeout_aborts_witness :
    (stepperHome (fun _ => false) 0 5 5 st0).gIsHoming = false ∧
    (stepperHome (fun _ => false) 0 5 5 st0).physStepPos = st0.physStepPos ∧
    (stepperHome (fun _ => false) 0 5 5 st0).logStepPos = st0.logStepPos ∧
    (stepperHome (fun _ => false) 0 5 5 st0).logStepTarget = st0.logStepTarget ∧
    (stepperHome (fun _ => false) 0 5 5 st0).physStepTarget = st0.physStepTarget ∧
    (stepperHome (fun _ => false) 0 5 5 st0).gStepEn = true :=
  C2_homing_timeout_aborts (fun _ => false) 0 5 5 st0 (fun _ => rfl)

/-- C8: for every coefficient quadruple and every speed input,
idlePositionFromSpeed equals the cubic evaluated at the speed clamped to
[0, 50], rounded to nearest and clamped to [0, 1000]; in particular the
result always lies in [0, 1000]. -/
theorem C8_idle_curve_clamped (k : IdleCurve) (v : ℚ) :
    idlePositionFromSpeed k v =
      constrainI (lroundQ (k.a + k.b * constrainQ v 0 50 + k.c * (constrainQ v 0 50) ^ 2
        + k.d * (constrainQ v 0 50) ^ 3)) 0 1000 ∧
    0 ≤ idlePositionFromSpeed k v ∧ idlePositionFromSpeed k v ≤ 1000 := by
  refine ⟨?_, ?_, ?_⟩
  · unfold idlePositionFromSpeed LOGICAL_MIN LOGICAL_MAX
    congr 2
    ring
  · exact (constrainI_range _ 0 1000 (by norm_num)).1
  · exact (constrainI_range _ 0 1000 (by norm_num)).2

/-- C6 counterexample: at logical input 1 the code returns 6 (truncating
integer division of 6960 by 1000), while rounding 6.96 to the nearest
integer would give 7. -/
theorem C6_rounding_counterexample :
    logicalToSteps 1 = 6 ∧
    lroundQ ((1 * PHYS_MAX_STEPS : ℚ) / (LOGICAL_MAX : ℚ)) = 7 := by
  constructor
  · rfl
  · norm_num [lroundQ, PHYS_MAX_STEPS, LOGICAL_MAX]

/-- C6 amended: logicalToSteps clamps to [0, 1000] and then floor-divides
(truncates) logical * PHYS_MAX_STEPS by 1000, and stepsToLogical is the
reciprocal mapping, clamping to [0, 6960] and floor-dividing by 6960;
neither rounds to nearest. -/
theorem C6_clamp_floor_division (l p : Int) :
    logicalToSteps l = ⌊((constrainI l 0 1000 : Int) * 6960 : ℚ) / 1000⌋ ∧
    stepsToLogical p = ⌊((constrainI p 0 6960 : Int) * 1000 : ℚ) / 6960⌋ := by
  constructor
  · rw [show ((constrainI l 0 1000 : Int) * 6960 : ℚ) = ((constrainI l 0 1000 * 6960 : Int) : ℚ) by push_cast; ring,
        show ((1000 : ℚ)) = ((1000 : Nat) : ℚ) by norm_num,
        Rat.floor_intCast_div_natCast]
    rfl
  · rw [show ((constrainI p 0 6960 : Int) * 1000 : ℚ) = ((constrainI p 0 6960 * 1000 : Int) : ℚ) by push_cast; ring,
        show ((6960 : ℚ)) = ((6960 : Nat) : ℚ) by norm_num,
        Rat.floor_intCast_div_natCast]
    rfl

/-- C7 counterexample: the composed map logicalToSteps after
stepsToLogical is not idempotent: at physical position 7 one application
gives 6 but a second application gives 0. -/
theorem C7_idempotence_counterexample :
    logicalToSteps (stepsToLogical 7) = 6 ∧
    logicalToSteps (stepsToLogical (logicalToSteps (stepsToLogical 7))) = 0 := by
  exact ⟨rfl, rfl⟩

/-- C7 amended: the idempotence clause fails (see the counterexample),
but the round-trip error bounds hold: for p in [0, 6960] the physical
round trip moves by at most 7 steps (the scale ratio 6960/1000 rounded
up), and for l in [0, 1000] the logical round trip moves by at most 1. -/
theorem C7_roundtrip_error_bounds (p l : Int) :
    (0 ≤ p → p ≤ 6960 → |logicalToSteps (stepsToLogical p) - p| ≤ 7) ∧
    (0 ≤ l → l ≤ 1000 → |stepsToLogical (logicalToSteps l) - l| ≤ 1) := by
  unfold logicalToSteps stepsToLogical constrainI LOGICAL_MIN LOGICAL_MAX PHYS_MIN_STEPS PHYS_MAX_STEPS
  constructor <;> intro h1 h2 <;> rw [abs_le] <;> constructor <;> split_ifs <;> omega

/-- C7 witness: the round-trip bounds instantiated at physical position 7
and logical position 3. -/
theorem C7_roundtrip_error_bounds_witness :
    |logicalToSteps (stepsToLogical 7) - 7| ≤ 7 ∧
    |stepsToLogical (logicalToSteps 3) - 3| ≤ 1 :=
  ⟨(C7_roundtrip_error_bounds 7 3).1 (by norm_num) (by norm_num),
   (C7_roundtrip_error_bounds 7 3).2 (by norm_num) (by norm_num)⟩

lemma ax_mono_le (ax : Nat → ℚ) (N : Nat) (h : ∀ k, k < N → ax k < ax (k + 1)) :
    ∀ d i, i + d ≤ N → ax i ≤ ax (i + d) := by
  intro d
  induction d with
  | zero => intro i _; exact le_rfl
  | succ d ih =>
      intro i hiN
      have h1 : ax i ≤ ax (i + d) := ih i (by omega)
      have h2 : ax (i + d) < ax (i + d + 1) := h (i + d) (by omega)
      exact (lt_of_le_of_lt h1 h2).le

lemma ax_le_of_le (ax : Nat → ℚ) (N : Nat) (h : ∀ k, k < N → ax k < ax (k + 1))
    (i j : Nat) (hij : i ≤ j) (hjN : j ≤ N) : ax i ≤ ax j := by
  obtain ⟨d, rfl⟩ := Nat.exists_eq_add_of_le hij
  exact ax_mono_le ax N h d i hjN

lemma scanIdx_self (ax : Nat → ℚ) (N : Nat) (h : ∀ k, k < N → ax k < ax (k + 1)) :
    ∀ n i, i ≤ n → n < N → scanIdx ax (ax i) n = i := by
  intro n
  induction n with
  | zero =>
      intro i hi _
      interval_cases i
      rfl
  | succ n ih =>
      intro i hi hN
      rw [scanIdx]
      rcases Nat.lt_or_ge i (n + 1) with hlt | hge
      · have hx : ¬ ax (n + 1) ≤ ax i := by
          have h1 : ax i ≤ ax n := ax_le_of_le ax N h i n (by omega) (by omega)
          have h2 : ax n < ax (n + 1) := h n (by omega)
          exact not_le.mpr (lt_of_le_of_lt h1 h2)
        rw [if_neg hx]
        exact ih i (by omega) (by omega)
      · have hieq : i = n + 1 := by omega
        subst hieq
        rw [if_pos le_rfl]

lemma scanIdx_ge (ax : Nat → ℚ) (x : ℚ) (n : Nat) (h : ax n ≤ x) :
    scanIdx ax x n = n := by
  cases n with
  | zero => rfl
  | succ n => rw [scanIdx, if_pos h]

lemma cellInterp_node (ax ay : Nat → ℚ) (z : Nat → Nat → ℚ) (xi yi : Nat)
    (hx : ax xi < ax (xi + 1)) (hy : ay yi < ay (yi + 1)) :
    cellInterp ax ay z xi yi (ax xi) (ay yi) = z xi yi ∧
    cellInterp ax ay z xi yi (ax (xi + 1)) (ay yi) = z (xi + 1) yi ∧
    cellInterp ax ay z xi yi (ax xi) (ay (yi + 1)) = z xi (yi + 1) ∧
    cellInterp ax ay z xi yi (ax (xi + 1)) (ay (yi + 1)) = z (xi + 1) (yi + 1) := by
  have hxne : ax (xi + 1) - ax xi ≠ 0 := sub_ne_zero.mpr hx.ne'
  have hyne : ay (yi + 1) - ay yi ≠ 0 := sub_ne_zero.mpr hy.ne'
  refine ⟨?_, ?_, ?_, ?_⟩ <;> (unfold cellInterp; field_simp; try ring)

lemma bilin_grid (ax ay : Nat → ℚ) (z : Nat → Nat → ℚ) (nx ny : Nat)
    (hnx : 2 ≤ nx) (hny : 2 ≤ ny)
    (hax : ∀ k, k < nx - 1 → ax k < ax (k + 1))
    (hay : ∀ k, k < ny - 1 → ay k < ay (k + 1))
    (i j : Nat) (hi : i < nx) (hj : j < ny) :
    bilin ax ay z nx ny (ax i) (ay j) = z i j := by
  unfold bilin
  have hxidx : (i < nx - 1 ∧ scanIdx ax (ax i) (nx - 2) = i) ∨
      (i = nx - 1 ∧ scanIdx ax (ax i) (nx - 2) = nx - 2) := by
    rcases Nat.lt_or_ge i (nx - 1) with hlt | hge
    · exact Or.inl ⟨hlt, scanIdx_self ax (nx - 1) hax (nx - 2) i (by omega) (by omega)⟩
    · have hieq : i = nx - 1 := by omega
      refine Or.inr ⟨hieq, ?_⟩
      apply scanIdx_ge
      subst hieq
      exact ax_le_of_le ax (nx - 1) hax (nx - 2) (nx - 1) (by omega) le_rfl
  have hyidx : (j < ny - 1 ∧ scanIdx ay (ay j) (ny - 2) = j) ∨
      (j = ny - 1 ∧ scanIdx ay (ay j) (ny - 2) = ny - 2) := by
    rcases Nat.lt_or_ge j (ny - 1) with hlt | hge
    · exact Or.inl ⟨hlt, scanIdx_self ay (ny - 1) hay (ny - 2) j (by omega) (by omega)⟩
    · have hjeq : j = ny - 1 := by omega
      refine Or.inr ⟨hjeq, ?_⟩
      apply scanIdx_ge
      subst hjeq
      exact ax_le_of_le ay (ny - 1) hay (ny - 2) (ny - 1) (by omega) le_rfl
  have hx2 : nx - 2 + 1 = nx - 1 := by omega
  have hy2 : ny - 2 + 1 = ny - 1 := by omega
  rcases hxidx with ⟨hilt, hxi⟩ | ⟨hieq, hxi⟩ <;>
    rcases hyidx with ⟨hjlt, hyj⟩ | ⟨hjeq, hyj⟩ <;> rw [hxi, hyj]
  · exact (cellInterp_node ax ay z i j (hax i hilt) (hay j hjlt)).1
  · have hyb : ay (ny - 2) < ay (ny - 2 + 1) := hay (ny - 2) (by omega)
    rw [hjeq, ← hy2]
    exact (cellInterp_node ax ay z i (ny - 2) (hax i hilt) hyb).2.2.1
  · have hxb : ax (nx - 2) < ax (nx - 2 + 1) := hax (nx - 2) (by omega)
    rw [hieq, ← hx2]
    exact (cellInterp_node ax ay z (nx - 2) j hxb (hay j hjlt)).2.1
  · have hxb : ax (nx - 2) < ax (nx - 2 + 1) := hax (nx - 2) (by omega)
    have hyb : ay (ny - 2) < ay (ny - 2 + 1) := hay (ny - 2) (by omega)
    rw [hieq, hjeq, ← hx2, ← hy2]
    exact (cellInterp_node ax ay z (nx - 2) (ny - 2) hxb hyb).2.2.2

lemma X_adj_mono : ∀ k, k < 6 → X k < X (k + 1) := by
  intro k hk; interval_cases k <;> norm_num [X]

lemma Y_adj_mono : ∀ k, k < 4 → Y k < Y (k + 1) := by
  intro k hk; interval_cases k <;> norm_num [Y]

lemma Xw_adj_mono : ∀ k, k < 6 → Xw k < Xw (k + 1) := by
  intro k hk; interval_cases k <;> norm_num [Xw]

lemma Yw_adj_mono : ∀ k, k < 8 → Yw k < Yw (k + 1) := by
  intro k hk; interval_cases k <;> norm_num [Yw]

lemma Xstep_adj_mono : ∀ k, k < 7 → Xstep k < Xstep (k + 1) := by
  intro k hk; interval_cases k <;> norm_num [Xstep]

lemma Ystep_adj_mono : ∀ k, k < 6 → Ystep k < Ystep (k + 1) := by
  intro k hk; interval_cases k <;> norm_num [Ystep]

/-- C5: each lookup function, queried exactly at a pair of grid values of
its axes (any valid indices, last entries included), returns exactly the
stored cell value of the corresponding table, with no interpolation error. -/
theorem C5_grid_node_exact (s : Tables) (i j : Nat) :
    (i < 7 → j < 5 → powerFromSpeedPos s (X i) (Y j) = s.Z i j) ∧
    (i < 7 → j < 9 → stepFromPowerSpeed s (Xw i) (Yw j) = s.Zw i j) ∧
    (i < 8 → j < 7 → gradeToSteps s (Xstep i) (Ystep j) = s.Zstep i j) := by
  refine ⟨?_, ?_, ?_⟩
  · intro hi hj
    have hx0 : X 0 ≤ X i := ax_le_of_le X 6 X_adj_mono 0 i (by omega) (by omega)
    have hx6 : X i ≤ X 6 := ax_le_of_le X 6 X_adj_mono i 6 (by omega) le_rfl
    have hy0 : Y 0 ≤ Y j := ax_le_of_le Y 4 Y_adj_mono 0 j (by omega) (by omega)
    have hy4 : Y j ≤ Y 4 := ax_le_of_le Y 4 Y_adj_mono j 4 (by omega) le_rfl
    rw [powerFromSpeedPos, if_neg (by push_neg; exact ⟨hx0, hx6⟩),
        if_neg (by push_neg; exact ⟨hy0, hy4⟩)]
    exact bilin_grid X Y s.Z 7 5 (by norm_num) (by norm_num) X_adj_mono Y_adj_mono i j hi hj
  · intro hi hj
    have hx0 : Xw 0 ≤ Xw i := ax_le_of_le Xw 6 Xw_adj_mono 0 i (by omega) (by omega)
    have hx6 : Xw i ≤ Xw 6 := ax_le_of_le Xw 6 Xw_adj_mono i 6 (by omega) le_rfl
    have hy0 : Yw 0 ≤ Yw j := ax_le_of_le Yw 8 Yw_adj_mono 0 j (by omega) (by omega)
    have hy8 : Yw j ≤ Yw 8 := ax_le_of_le Yw 8 Yw_adj_mono j 8 (by omega) le_rfl
    rw [stepFromPowerSpeed, if_neg (by push_neg; exact ⟨hx0, hx6⟩),
        if_neg (by push_neg; exact ⟨hy0, hy8⟩)]
    exact bilin_grid Xw Yw s.Zw 7 9 (by norm_num) (by norm_num) Xw_adj_mono Yw_adj_mono i j hi hj
  · intro hi hj
    have hx0 : Xstep 0 ≤ Xstep i := ax_le_of_le Xstep 7 Xstep_adj_mono 0 i (by omega) (by omega)
    have hx7 : Xstep i ≤ Xstep 7 := ax_le_of_le Xstep 7 Xstep_adj_mono i 7 (by omega) le_rfl
    have hy0 : Ystep 0 ≤ Ystep j := ax_le_of_le Ystep 6 Ystep_adj_mono 0 j (by omega) (by omega)
    have hy6 : Ystep j ≤ Ystep 6 := ax_le_of_le Ystep 6 Ystep_adj_mono j 6 (by omega) le_rfl
    rw [gradeToSteps, if_neg (by push_neg; exact ⟨hx0, hx7⟩),
        if_neg (by push_neg; exact ⟨hy0, hy6⟩)]
    exact bilin_grid Xstep Ystep s.Zstep 8 7 (by norm_num) (by norm_num)
      Xstep_adj_mono Ystep_adj_mono i j hi hj

/-- C5 witness: the grid-node theorem instantiated at indices (1, 2) of
each table in the boot state. -/
theorem C5_grid_node_exact_witness :
    powerFromSpeedPos initTables (X 1) (Y 2) = initTables.Z 1 2 ∧
    stepFromPowerSpeed initTables (Xw 1) (Yw 2) = initTables.Zw 1 2 ∧
    gradeToSteps initTables (Xstep 1) (Ystep 2) = initTables.Zstep 1 2 :=
  ⟨(C5_grid_node_exact initTables 1 2).1 (by norm_num) (by norm_num),
   (C5_grid_node_exact initTables 1 2).2.1 (by norm_num) (by norm_num),
   (C5_grid_node_exact initTables 1 2).2.2 (by norm_num) (by norm_num)⟩

/-- C1: the out-of-range policies of the three lookups differ by table.
Out-of-range speed (all three speed axes span [0, 50]) gives 0 from the
Power and ERG lookups but the mid-scale default 500 from the SIM lookup;
with in-range speed, an out-of-range position gives 0 from the Power
lookup and an out-of-range wattage gives 0 from the ERG lookup, whereas
the SIM lookup clamps the grade into [-4, 10] and still interpolates. -/
theorem C1_out_of_range_policy (s : Tables) (v p w g : ℚ) :
    ((v < 0 ∨ 50 < v) →
      powerFromSpeedPos s v p = 0 ∧ stepFromPowerSpeed s v w = 0 ∧
      gradeToSteps s v g = 500) ∧
    (0 ≤ v → v ≤ 50 → (p < 0 ∨ 1000 < p) → powerFromSpeedPos s v p = 0) ∧
    (0 ≤ v → v ≤ 50 → (w < 0 ∨ 1000 < w) → stepFromPowerSpeed s v w = 0) ∧
    (0 ≤ v → v ≤ 50 →
      gradeToSteps s v g = bilin Xstep Ystep s.Zstep 8 7 v (constrainQ g (-4) 10)) := by
  refine ⟨?_, ?_, ?_, ?_⟩
  · intro hv
    refine ⟨?_, ?_, ?_⟩
    · rw [powerFromSpeedPos, if_pos (by simpa [X] using hv)]
    · rw [stepFromPowerSpeed, if_pos (by simpa [Xw] using hv)]
    · rw [gradeToSteps, if_pos (by simpa [Xstep] using hv)]
  · intro h0 h50 hp
    rw [powerFromSpeedPos, if_neg (by simp only [X]; push_neg; exact ⟨h0, h50⟩),
        if_pos (by simpa [Y] using hp)]
  · intro h0 h50 hw
    rw [stepFromPowerSpeed, if_neg (by simp only [Xw]; push_neg; exact ⟨h0, h50⟩),
        if_pos (by simpa [Yw] using hw)]
  · intro h0 h50
    rw [gradeToSteps, if_neg (by simp only [Xstep]; push_neg; exact ⟨h0, h50⟩)]
    congr 1
    by_cases hg : g < Ystep 0 ∨ Ystep 6 < g
    · rw [if_pos hg]
      simp [Ystep]
    · rw [if_neg hg]
      push_neg at hg
      simp only [Ystep] at hg
      exact (constrainQ_eq_self g (-4) 10 hg.1 hg.2).symm

/-- C1 witness: the policy theorem instantiated at out-of-range speed 60
and, with in-range speed 10, at out-of-range position 1500, wattage 1500
and grade 20. -/
theorem C1_out_of_range_policy_witness :
    (powerFromSpeedPos initTables 60 500 = 0 ∧ stepFromPowerSpeed initTables 60 200 = 0 ∧
      gradeToSteps initTables 60 5 = 500) ∧
    powerFromSpeedPos initTables 10 1500 = 0 ∧
    stepFromPowerSpeed initTables 10 1500 = 0 ∧
    gradeToSteps initTables 10 20 = bilin Xstep Ystep initTables.Zstep 8 7 10 (constrainQ 20 (-4) 10) :=
  ⟨(C1_out_of_range_policy initTables 60 500 200 5).1 (by norm_num),
   (C1_out_of_range_policy initTables 10 1500 1500 20).2.1 (by norm_num) (by norm_num) (by norm_num),
   (C1_out_of_range_policy initTables 10 1500 1500 20).2.2.1 (by norm_num) (by norm_num) (by norm_num),
   (C1_out_of_range_policy initTables 10 1500 1500 20).2.2.2 (by norm_num) (by norm_num)⟩

lemma updateLimitDebounce_pos (raw : Bool) (t : Nat) (s : St) :
    (updateLimitDebounce raw t s).physStepPos = s.physStepPos ∧
    (updateLimitDebounce raw t s).logStepPos = s.logStepPos ∧
    (updateLimitDebounce raw t s).logStepTarget = s.logStepTarget := by
  unfold updateLimitDebounce; split_ifs <;> exact ⟨rfl, rfl, rfl⟩

lemma updE_pos (tm tu : Nat) (s : St) :
    (updateStepperEnableFromError tm tu s).physStepPos = s.physStepPos ∧
    (updateStepperEnableFromError tm tu s).logStepPos = s.logStepPos ∧
    (updateStepperEnableFromError tm tu s).logStepTarget = s.logStepTarget := by
  unfold updateStepperEnableFromError stepperEnable
  split_ifs <;> exact ⟨rfl, rfl, rfl⟩

lemma stepperRamp_pos (tu : Nat) (t : ℚ) (s : St) :
    (stepperRamp tu t s).physStepPos = s.physStepPos ∧
    (stepperRamp tu t s).logStepPos = s.logStepPos := by
  simp only [stepperRamp]; split_ifs <;> exact ⟨rfl, rfl⟩

lemma stepperStep_pos (curDir : Int) (tu : Nat) (s : St) :
    ((stepperStep curDir tu s).physStepPos = s.physStepPos ∧
     (stepperStep curDir tu s).logStepPos = s.logStepPos) ∨
    ∃ d : Int, (d = 1 ∨ d = -1) ∧
      (stepperStep curDir tu s).physStepPos =
        constrainI (s.physStepPos + d) PHYS_MIN_STEPS PHYS_MAX_STEPS ∧
      (stepperStep curDir tu s).logStepPos = stepsToLogical (s.physStepPos + d) := by
  unfold stepperStep
  split_ifs with hdue hdir
  · exact Or.inr ⟨1, Or.inl rfl, rfl, rfl⟩
  · exact Or.inr ⟨-1, Or.inr rfl, by rw [sub_eq_add_neg], by rw [sub_eq_add_neg]⟩
  · exact Or.inl ⟨rfl, rfl⟩

lemma stepperUpdate_shape (raw : Bool) (tm tu : Nat) (s : St) :
    (∃ s1, stepperUpdate raw tm tu s = s1 ∧ s1.physStepPos = s.physStepPos ∧
       s1.logStepPos = s.logStepPos) ∨
    (∃ curDir s3, stepperUpdate raw tm tu s = stepperStep curDir tu s3 ∧
       s3.physStepPos = s.physStepPos ∧ s3.logStepPos = s.logStepPos) := by
  have hudl := updateLimitDebounce_pos raw tm s
  have hupd := updE_pos tm tu (updateLimitDebounce raw tm s)
  have hp := hupd.1.trans hudl.1
  have hl := hupd.2.1.trans hudl.2.1
  simp only [stepperUpdate]
  split_ifs with hen herr
  all_goals try exact Or.inl ⟨_, rfl, hp, hl⟩
  all_goals refine Or.inr ⟨_, _, rfl, ?_, ?_⟩
  all_goals first
    | (rw [(stepperRamp_pos _ _ _).1]; exact hp)
    | (rw [(stepperRamp_pos _ _ _).2]; exact hl)

lemma stepsToLogical_constrain (p : Int) :
    stepsToLogical (constrainI p PHYS_MIN_STEPS PHYS_MAX_STEPS) = stepsToLogical p := by
  unfold stepsToLogical constrainI PHYS_MIN_STEPS PHYS_MAX_STEPS LOGICAL_MAX
  split_ifs <;> omega

/-- C10: one stepperUpdate call preserves the position invariant
physStepPos in [PHYS_MIN_STEPS, PHYS_MAX_STEPS] = [0, 6960] with
logStepPos = stepsToLogical physStepPos; moreover the iteration either
leaves both positions unchanged or moves physStepPos by one step in some
direction d, clamped to the travel limits, rederiving logStepPos. -/
theorem C10_stepper_position_invariant (raw : Bool) (tm tu : Nat) (s : St)
    (h1 : PHYS_MIN_STEPS ≤ s.physStepPos) (h2 : s.physStepPos ≤ PHYS_MAX_STEPS)
    (h3 : s.logStepPos = stepsToLogical s.physStepPos) :
    (PHYS_MIN_STEPS ≤ (stepperUpdate raw tm tu s).physStepPos ∧
     (stepperUpdate raw tm tu s).physStepPos ≤ PHYS_MAX_STEPS ∧
     (stepperUpdate raw tm tu s).logStepPos =
       stepsToLogical (stepperUpdate raw tm tu s).physStepPos) ∧
    (((stepperUpdate raw tm tu s).physStepPos = s.physStepPos ∧
      (stepperUpdate raw tm tu s).logStepPos = s.logStepPos) ∨
     ∃ d : Int, (d = 1 ∨ d = -1) ∧
       (stepperUpdate raw tm tu s).physStepPos =
         constrainI (s.physStepPos + d) PHYS_MIN_STEPS PHYS_MAX_STEPS ∧
       (stepperUpdate raw tm tu s).logStepPos = stepsToLogical (s.physStepPos + d)) := by
  have hb : PHYS_MIN_STEPS ≤ PHYS_MAX_STEPS := by norm_num [PHYS_MIN_STEPS, PHYS_MAX_STEPS]
  rcases stepperUpdate_shape raw tm tu s with ⟨s1, heq, hp, hl⟩ | ⟨curDir, s3, heq, hp, hl⟩
  · rw [heq]
    exact ⟨⟨hp ▸ h1, hp ▸ h2, by rw [hp, hl, h3]⟩, Or.inl ⟨hp, hl⟩⟩
  · rw [heq]
    rcases stepperStep_pos curDir tu s3 with ⟨hp2, hl2⟩ | ⟨d, hd, hp2, hl2⟩
    · have hpc := hp2.trans hp
      have hlc := hl2.trans hl
      exact ⟨⟨hpc ▸ h1, hpc ▸ h2, by rw [hpc, hlc, h3]⟩, Or.inl ⟨hpc, hlc⟩⟩
    · rw [hp] at hp2
      rw [hp] at hl2
      refine ⟨⟨?_, ?_, ?_⟩, Or.inr ⟨d, hd, hp2, hl2⟩⟩
      · rw [hp2]; exact (constrainI_range _ _ _ hb).1
      · rw [hp2]; exact (constrainI_range _ _ _ hb).2
      · rw [hp2, hl2, stepsToLogical_constrain]

/-- C10 witness: the invariant theorem instantiated at a concrete state
(entered disabled with error 200, so the policy re-enables the motor and
the iteration issues a step; either disjunct of the conclusion is
covered by the theorem). -/
theorem C10_stepper_position_invariant_witness :
    (PHYS_MIN_STEPS ≤ (stepperUpdate false 5 5 st0).physStepPos ∧
     (stepperUpdate false 5 5 st0).physStepPos ≤ PHYS_MAX_STEPS ∧
     (stepperUpdate false 5 5 st0).logStepPos =
       stepsToLogical (stepperUpdate false 5 5 st0).physStepPos) ∧
    (((stepperUpdate false 5 5 st0).physStepPos = st0.physStepPos ∧
      (stepperUpdate false 5 5 st0).logStepPos = st0.logStepPos) ∨
     ∃ d : Int, (d = 1 ∨ d = -1) ∧
       (stepperUpdate false 5 5 st0).physStepPos =
         constrainI (st0.physStepPos + d) PHYS_MIN_STEPS PHYS_MAX_STEPS ∧
       (stepperUpdate false 5 5 st0).logStepPos = stepsToLogical (st0.physStepPos + d)) :=
  C10_stepper_position_invariant false 5 5 st0
    (by norm_num [st0, PHYS_MIN_STEPS])
    (by norm_num [st0, PHYS_MAX_STEPS])
    (by norm_num [st0, stepsToLogical, constrainI, PHYS_MIN_STEPS, PHYS_MAX_STEPS, LOGICAL_MAX])

lemma wsub_self (a : Nat) : wsub a a = 0 := by
  unfold wsub U32; omega

lemma udl_keep (raw : Bool) (t : Nat) (s : St) :
    (updateLimitDebounce raw t s).logStepPos = s.logStepPos ∧
    (updateLimitDebounce raw t s).logStepTarget = s.logStepTarget ∧
    (updateLimitDebounce raw t s).gIsHoming = s.gIsHoming ∧
    (updateLimitDebounce raw t s).gRehomeRequested = s.gRehomeRequested ∧
    (updateLimitDebounce raw t s).gStepEn = s.gStepEn ∧
    (updateLimitDebounce raw t s).gSettledSinceMs = s.gSettledSinceMs ∧
    (updateLimitDebounce raw t s).gLastDir = s.gLastDir ∧
    (updateLimitDebounce raw t s).gDirJustChanged = s.gDirJustChanged ∧
    (updateLimitDebounce raw t s).rampCurSps = s.rampCurSps ∧
    (updateLimitDebounce raw t s).rampLastUs = s.rampLastUs ∧
    (updateLimitDebounce raw t s).runSpeedSps = s.runSpeedSps := by
  unfold updateLimitDebounce
  split_ifs <;> exact ⟨rfl, rfl, rfl, rfl, rfl, rfl, rfl, rfl, rfl, rfl, rfl⟩

lemma updE_enabled_keep (tm tu : Nat) (s : St)
    (hh : s.gIsHoming = false) (hr : s.gRehomeRequested = false)
    (hen : s.gStepEn = true) (hs0 : s.gSettledSinceMs = 0) :
    (updateStepperEnableFromError tm tu s).gStepEn = true ∧
    (updateStepperEnableFromError tm tu s).gLastDir = s.gLastDir ∧
    (updateStepperEnableFromError tm tu s).runSpeedSps = s.runSpeedSps ∧
    (updateStepperEnableFromError tm tu s).rampCurSps = s.rampCurSps ∧
    (updateStepperEnableFromError tm tu s).rampLastUs = s.rampLastUs ∧
    (updateStepperEnableFromError tm tu s).gDirJustChanged = s.gDirJustChanged ∧
    (updateStepperEnableFromError tm tu s).logStepTarget = s.logStepTarget ∧
    (updateStepperEnableFromError tm tu s).logStepPos = s.logStepPos := by
  unfold updateStepperEnableFromError
  simp only [hh, hr, hen, hs0, wsub_self, STEP_IDLE_OFF_MS]
  norm_num
  split_ifs <;> exact ⟨rfl, rfl, rfl, rfl, rfl, rfl, rfl, rfl⟩

lemma stepperStep_ramp (curDir : Int) (tu : Nat) (s : St) :
    (stepperStep curDir tu s).rampCurSps = s.rampCurSps ∧
    (stepperStep curDir tu s).stepIntervalUs = s.stepIntervalUs ∧
    (stepperStep curDir tu s).rampLastUs = s.rampLastUs := by
  simp only [stepperStep]
  split_ifs <;> exact ⟨rfl, rfl, rfl⟩

lemma stepperRamp_after_reset (tu : Nat) (T : ℚ) (s : St)
    (hdjc : s.gDirJustChanged = true) (hcur : s.rampCurSps = rampStartSps)
    (hlast : s.rampLastUs = tu) (hT : rampStartSps < T) :
    (stepperRamp tu T s).rampCurSps = rampStartSps ∧
    (stepperRamp tu T s).stepIntervalUs = spsToIntervalUs rampStartSps ∧
    (stepperRamp tu T s).rampLastUs = tu := by
  have hr0 : s.rampCurSps + rampAccelSps2 * ((wsub tu s.rampLastUs : ℚ) / 1000000)
      = rampStartSps := by
    rw [hcur, hlast, wsub_self]; norm_num
  simp only [stepperRamp]
  split_ifs with hcond hle
  · exact absurd (hr0 ▸ hle) (not_le.mpr hT)
  · exact ⟨hr0, by rw [hr0], rfl⟩
  · exact absurd (Or.inl (by rw [hdjc] : s.gDirJustChanged = true)) hcond

/-- On an iteration entered with the motor enabled, the policy preserves
the direction tracking, the speed configuration and the position fields:
every reachable branch writes at most the settle timer and the enable
flag (the gLastDir reset of stepperEnable happens only on the
disabled-to-enabled transition, excluded here). -/
lemma updE_enabled_preserve (tm tu : Nat) (s : St)
    (hen : s.gStepEn = true) :
    (updateStepperEnableFromError tm tu s).gLastDir = s.gLastDir ∧
    (updateStepperEnableFromError tm tu s).runSpeedSps = s.runSpeedSps ∧
    (updateStepperEnableFromError tm tu s).logStepTarget = s.logStepTarget ∧
    (updateStepperEnableFromError tm tu s).logStepPos = s.logStepPos := by
  unfold updateStepperEnableFromError
  simp only [hen]
  split_ifs <;> exact ⟨rfl, rfl, rfl, rfl⟩

/-- C9: whenever a stepperUpdate iteration computes a nonzero tracking
error (that is, the enable policy leaves the motor enabled on this
iteration, so the motion section runs) whose sign differs from the
stored nonzero direction, the ramp is reset: after the iteration the
ramp speed is rampStartSps (900 sps), the step interval in force (used
by any step issued in that iteration) is the one derived from
rampStartSps, and the acceleration timer restarts at the current micros
reading.  The run-speed hypothesis states the configured cruise rate
exceeds the reset speed, as with the default 2500 sps. -/
theorem C9_direction_reversal_ramp_reset (raw : Bool) (tm tu : Nat) (s : St)
    (hen : s.gStepEn = true)
    (hstill : (updateStepperEnableFromError tm tu (updateLimitDebounce raw tm s)).gStepEn = true)
    (herr : s.logStepTarget - s.logStepPos ≠ 0)
    (hdir0 : s.gLastDir ≠ 0)
    (hdir : (if 0 < s.logStepTarget - s.logStepPos then (1 : Int) else -1) ≠ s.gLastDir)
    (hrun : rampStartSps < s.runSpeedSps) :
    (stepperUpdate raw tm tu s).rampCurSps = rampStartSps ∧
    (stepperUpdate raw tm tu s).stepIntervalUs = spsToIntervalUs rampStartSps ∧
    (stepperUpdate raw tm tu s).rampLastUs = tu := by
  obtain ⟨u1, u2, u3, u4, u5, u6, u7, u8, u9, u10, u11⟩ := udl_keep raw tm s
  obtain ⟨e2, e3, e7, e8⟩ := updE_enabled_preserve tm tu (updateLimitDebounce raw tm s)
    (u5.trans hen)
  rw [u7] at e2
  rw [u11] at e3
  rw [u2] at e7
  rw [u1] at e8
  simp only [stepperUpdate, hstill, e2, e3, e7, e8]
  rw [if_neg (not_not_intro trivial : ¬ ¬ True)]
  rw [if_neg herr]
  have hc : (if 0 < s.logStepTarget - s.logStepPos then (1 : Int) else -1) ≠ s.gLastDir ∧
      s.gLastDir ≠ 0 := ⟨hdir, hdir0⟩
  rw [if_pos hc]
  refine ⟨((stepperStep_ramp _ tu _).1).trans
            (stepperRamp_after_reset tu _ _ rfl rfl rfl ?_).1,
          ((stepperStep_ramp _ tu _).2.1).trans
            (stepperRamp_after_reset tu _ _ rfl rfl rfl ?_).2.1,
          ((stepperStep_ramp _ tu _).2.2).trans
            (stepperRamp_after_reset tu _ _ rfl rfl rfl ?_).2.2⟩
  all_goals split_ifs with hz
  all_goals first
    | exact hrun
    | norm_num [rampStartSps, slowZoneSps]

/-- C9 witness: a concrete reversal (error +200 against stored direction
-1), entered enabled and staying enabled through the policy, resets the
ramp. -/
theorem C9_direction_reversal_ramp_reset_witness :
    (stepperUpdate false 7 11 { st0 with gStepEn := true, gLastDir := -1 }).rampCurSps =
      rampStartSps ∧
    (stepperUpdate false 7 11 { st0 with gStepEn := true, gLastDir := -1 }).stepIntervalUs =
      spsToIntervalUs rampStartSps ∧
    (stepperUpdate false 7 11 { st0 with gStepEn := true, gLastDir := -1 }).rampLastUs = 11 :=
  C9_direction_reversal_ramp_reset false 7 11 _ rfl (by decide)
    (by norm_num [st0]) (by norm_num) (by norm_num [st0]) (by norm_num [st0, rampStartSps])

lemma wsub_eq (a b : Nat) (hba : b ≤ a) (ha : a < U32) : wsub a b = a - b := by
  unfold wsub U32
  unfold U32 at ha
  omega

lemma updE_flags (tm tu : Nat) (s : St) :
    (updateStepperEnableFromError tm tu s).gIsHoming = s.gIsHoming ∧
    (updateStepperEnableFromError tm tu s).gRehomeRequested = s.gRehomeRequested := by
  unfold updateStepperEnableFromError stepperEnable
  split_ifs <;> exact ⟨rfl, rfl⟩

lemma updE_disabled_stay (tm tu : Nat) (s : St)
    (hh : s.gIsHoming = false) (hr : s.gRehomeRequested = false)
    (hen : s.gStepEn = false)
    (hlt : (s.logStepTarget - s.logStepPos).natAbs < STEP_ON_DEADBAND_LOG) :
    updateStepperEnableFromError tm tu s = s := by
  unfold updateStepperEnableFromError
  rw [if_neg (by simp [hh, hr]), if_neg (by simp [hen]), if_neg (not_le.mpr hlt)]

lemma updE_enabled_start (tm tu : Nat) (s : St)
    (hh : s.gIsHoming = false) (hr : s.gRehomeRequested = false) (hen : s.gStepEn = true)
    (herr : (s.logStepTarget - s.logStepPos).natAbs ≤ STEP_OFF_DEADBAND_LOG)
    (hs : s.gSettledSinceMs = 0) :
    updateStepperEnableFromError tm tu s = { s with gSettledSinceMs := tm } := by
  unfold updateStepperEnableFromError
  rw [if_neg (by simp [hh, hr]), if_pos hen, if_pos herr, if_pos hs,
      if_neg (by rw [wsub_self]; norm_num [STEP_IDLE_OFF_MS])]

lemma updE_enabled_wait (tm tu : Nat) (s : St)
    (hh : s.gIsHoming = false) (hr : s.gRehomeRequested = false) (hen : s.gStepEn = true)
    (herr : (s.logStepTarget - s.logStepPos).natAbs ≤ STEP_OFF_DEADBAND_LOG)
    (hs : s.gSettledSinceMs ≠ 0)
    (hlt : wsub tm s.gSettledSinceMs < STEP_IDLE_OFF_MS) :
    updateStepperEnableFromError tm tu s = s := by
  unfold updateStepperEnableFromError
  rw [if_neg (by simp [hh, hr]), if_pos hen, if_pos herr, if_neg hs, if_neg (not_le.mpr hlt)]

lemma updE_enabled_expire (tm tu : Nat) (s : St)
    (hh : s.gIsHoming = false) (hr : s.gRehomeRequested = false) (hen : s.gStepEn = true)
    (herr : (s.logStepTarget - s.logStepPos).natAbs ≤ STEP_OFF_DEADBAND_LOG)
    (hs : s.gSettledSinceMs ≠ 0)
    (hge : STEP_IDLE_OFF_MS ≤ wsub tm s.gSettledSinceMs) :
    (updateStepperEnableFromError tm tu s).gStepEn = false ∧
    (updateStepperEnableFromError tm tu s).gSettledSinceMs = 0 := by
  unfold updateStepperEnableFromError
  rw [if_neg (by simp [hh, hr]), if_pos hen, if_pos herr, if_neg hs, if_pos hge]
  exact ⟨rfl, rfl⟩

lemma updE_enabled_outofband (tm tu : Nat) (s : St)
    (hh : s.gIsHoming = false) (hr : s.gRehomeRequested = false) (hen : s.gStepEn = true)
    (hout : STEP_OFF_DEADBAND_LOG < (s.logStepTarget - s.logStepPos).natAbs) :
    updateStepperEnableFromError tm tu s = { s with gSettledSinceMs := 0 } := by
  unfold updateStepperEnableFromError
  rw [if_neg (by simp [hh, hr]), if_pos hen, if_neg (not_le.mpr hout)]

lemma runEnable_flags (tgt pos : Nat → Int) (tms : Nat → Nat) (s : St)
    (hh : s.gIsHoming = false) (hr : s.gRehomeRequested = false) :
    ∀ n, (runEnableN tgt pos tms s n).gIsHoming = false ∧
         (runEnableN tgt pos tms s n).gRehomeRequested = false := by
  intro n
  induction n with
  | zero => exact ⟨hh, hr⟩
  | succ n ih =>
      have hf := updE_flags (tms n) (tms n)
        (envWrite (tgt n) (pos n) (runEnableN tgt pos tms s n))
      rw [runEnableN]
      exact ⟨hf.1.trans ih.1, hf.2.trans ih.2⟩

lemma tms_mono_le (tms : Nat → Nat) (N : Nat) (h : ∀ n, n < N → tms n < tms (n + 1)) :
    ∀ d i, i + d ≤ N → tms i ≤ tms (i + d) := by
  intro d
  induction d with
  | zero => intro i _; exact le_rfl
  | succ d ih =>
      intro i hiN
      have h1 := ih i (by omega)
      have h2 := h (i + d) (by omega)
      have hidx : i + (d + 1) = i + d + 1 := by omega
      rw [hidx]
      omega

lemma tms_le_of_le (tms : Nat → Nat) (N : Nat) (h : ∀ n, n < N → tms n < tms (n + 1))
    (i j : Nat) (hij : i ≤ j) (hjN : j ≤ N) : tms i ≤ tms j := by
  obtain ⟨d, rfl⟩ := Nat.exists_eq_add_of_le hij
  exact tms_mono_le tms N h d i hjN

lemma runEnable_inv (tgt pos : Nat → Int) (tms : Nat → Nat) (s : St) (N : Nat)
    (hen : s.gStepEn = true) (hh : s.gIsHoming = false) (hr : s.gRehomeRequested = false)
    (hset : s.gSettledSinceMs = 0)
    (herr : ∀ n, (tgt n - pos n).natAbs ≤ STEP_OFF_DEADBAND_LOG)
    (hmono : ∀ n, n < N → tms n < tms (n + 1)) (h0 : 1 ≤ tms 0)
    (hub : ∀ n, n ≤ N → tms n < U32) :
    ∀ n, n < N → (((runEnableN tgt pos tms s (n + 1)).gStepEn = true ∧
          (runEnableN tgt pos tms s (n + 1)).gSettledSinceMs = tms 0 ∧
          tms n - tms 0 < STEP_IDLE_OFF_MS)
       ∨ ((runEnableN tgt pos tms s (n + 1)).gStepEn = false ∧
          (runEnableN tgt pos tms s (n + 1)).gSettledSinceMs = 0)) := by
  have hfl := runEnable_flags tgt pos tms s hh hr
  have h612 : STEP_OFF_DEADBAND_LOG < STEP_ON_DEADBAND_LOG := by
    norm_num [STEP_OFF_DEADBAND_LOG, STEP_ON_DEADBAND_LOG]
  intro n
  induction n with
  | zero =>
      intro hnN
      left
      rw [runEnableN,
        updE_enabled_start (tms 0) (tms 0)
          (envWrite (tgt 0) (pos 0) (runEnableN tgt pos tms s 0)) hh hr hen (herr 0) hset]
      refine ⟨hen, rfl, ?_⟩
      have hz : tms 0 - tms 0 = 0 := by omega
      rw [hz]
      norm_num [STEP_IDLE_OFF_MS]
  | succ n ih =>
      intro hnN
      have hmle : tms 0 ≤ tms (n + 1) :=
        tms_le_of_le tms N hmono 0 (n + 1) (by omega) (by omega)
      rcases ih (by omega) with ⟨hen1, hset1, _⟩ | ⟨hen0, hset0⟩
      · have hwe : wsub (tms (n + 1)) (runEnableN tgt pos tms s (n + 1)).gSettledSinceMs
            = tms (n + 1) - tms 0 := by
          rw [hset1]
          exact wsub_eq (tms (n + 1)) (tms 0) hmle (hub (n + 1) (by omega))
        by_cases hexp : STEP_IDLE_OFF_MS ≤ tms (n + 1) - tms 0
        · right
          rw [runEnableN]
          exact updE_enabled_expire (tms (n + 1)) (tms (n + 1))
            (envWrite (tgt (n + 1)) (pos (n + 1)) (runEnableN tgt pos tms s (n + 1)))
            (hfl (n + 1)).1 (hfl (n + 1)).2 hen1 (herr (n + 1))
            (show (runEnableN tgt pos tms s (n + 1)).gSettledSinceMs ≠ 0 by
              rw [hset1]; omega)
            (show STEP_IDLE_OFF_MS ≤
                wsub (tms (n + 1)) (runEnableN tgt pos tms s (n + 1)).gSettledSinceMs by
              rw [hwe]; exact hexp)
        · left
          rw [runEnableN,
            updE_enabled_wait (tms (n + 1)) (tms (n + 1))
              (envWrite (tgt (n + 1)) (pos (n + 1)) (runEnableN tgt pos tms s (n + 1)))
              (hfl (n + 1)).1 (hfl (n + 1)).2 hen1 (herr (n + 1))
              (show (runEnableN tgt pos tms s (n + 1)).gSettledSinceMs ≠ 0 by
                rw [hset1]; omega)
              (show wsub (tms (n + 1)) (runEnableN tgt pos tms s (n + 1)).gSettledSinceMs
                  < STEP_IDLE_OFF_MS by rw [hwe]; omega)]
          exact ⟨hen1, hset1, by omega⟩
      · right
        rw [runEnableN,
          updE_disabled_stay (tms (n + 1)) (tms (n + 1))
            (envWrite (tgt (n + 1)) (pos (n + 1)) (runEnableN tgt pos tms s (n + 1)))
            (hfl (n + 1)).1 (hfl (n + 1)).2 hen0
            (show (tgt (n + 1) - pos (n + 1)).natAbs < STEP_ON_DEADBAND_LOG by
              have h6 := herr (n + 1); omega)]
        exact ⟨hen0, hset0⟩

lemma runEnable_stay_false (tgt pos : Nat → Int) (tms : Nat → Nat) (s : St)
    (hh : s.gIsHoming = false) (hr : s.gRehomeRequested = false)
    (herr : ∀ n, (tgt n - pos n).natAbs ≤ STEP_OFF_DEADBAND_LOG) :
    ∀ m n, n ≤ m → (runEnableN tgt pos tms s n).gStepEn = false →
      (runEnableN tgt pos tms s m).gStepEn = false := by
  have hfl := runEnable_flags tgt pos tms s hh hr
  have h612 : STEP_OFF_DEADBAND_LOG < STEP_ON_DEADBAND_LOG := by
    norm_num [STEP_OFF_DEADBAND_LOG, STEP_ON_DEADBAND_LOG]
  intro m
  induction m with
  | zero =>
      intro n hn h
      interval_cases n
      exact h
  | succ m ih =>
      intro n hn h
      rcases Nat.lt_or_ge n (m + 1) with hlt | hge
      · have hm : (runEnableN tgt pos tms s m).gStepEn = false := ih n (by omega) h
        rw [runEnableN,
          updE_disabled_stay (tms m) (tms m)
            (envWrite (tgt m) (pos m) (runEnableN tgt pos tms s m))
            (hfl m).1 (hfl m).2 hm
            (show (tgt m - pos m).natAbs < STEP_ON_DEADBAND_LOG by
              have h6 := herr m; omega)]
        exact hm
      · have heq : n = m + 1 := by omega
        rw [← heq]
        exact h

/-- C4: hysteresis of the enable/disable policy.  First part: starting
enabled with no homing or rehome pending and the settle timer clear, if
the tracking error supplied to every iteration stays within the off
deadband (STEP_OFF_DEADBAND_LOG = 6) and the iteration times increase
through a window whose span reaches the idle threshold
(STEP_IDLE_OFF_MS = 1500 ms), then there is a single switch index: the
motor is enabled up to it and disabled at every later iteration, so the
disable happens exactly once with no flapping.  Second part: a disabled
motor with error below the on deadband (STEP_ON_DEADBAND_LOG = 12)
stays disabled.  Third part: an enabled iteration with error above the
off deadband keeps the motor enabled and resets the settle timer, so no
disable occurs on such an iteration. -/
theorem C4_enable_disable_hysteresis :
    (∀ (tgt pos : Nat → Int) (tms : Nat → Nat) (s : St) (k : Nat),
      s.gStepEn = true → s.gIsHoming = false → s.gRehomeRequested = false →
      s.gSettledSinceMs = 0 →
      (∀ n, (tgt n - pos n).natAbs ≤ STEP_OFF_DEADBAND_LOG) →
      (∀ n, n < k + 1 → tms n < tms (n + 1)) → 1 ≤ tms 0 →
      (∀ n, n ≤ k + 1 → tms n < U32) →
      STEP_IDLE_OFF_MS ≤ tms k - tms 0 →
      ∃ j, j ≤ k ∧
        (∀ i, i ≤ j → (runEnableN tgt pos tms s i).gStepEn = true) ∧
        (∀ i, j < i → (runEnableN tgt pos tms s i).gStepEn = false)) ∧
    (∀ (tm tu : Nat) (s : St),
      s.gIsHoming = false → s.gRehomeRequested = false → s.gStepEn = false →
      (s.logStepTarget - s.logStepPos).natAbs < STEP_ON_DEADBAND_LOG →
      (updateStepperEnableFromError tm tu s).gStepEn = false) ∧
    (∀ (tm tu : Nat) (s : St),
      s.gIsHoming = false → s.gRehomeRequested = false → s.gStepEn = true →
      STEP_OFF_DEADBAND_LOG < (s.logStepTarget - s.logStepPos).natAbs →
      (updateStepperEnableFromError tm tu s).gStepEn = true ∧
      (updateStepperEnableFromError tm tu s).gSettledSinceMs = 0) := by
  refine ⟨?_, ?_, ?_⟩
  · intro tgt pos tms s k hen hh hr hset herr hmono h0 hub hk
    have hinv := runEnable_inv tgt pos tms s (k + 1) hen hh hr hset herr hmono h0 hub
    have hk1 : (runEnableN tgt pos tms s (k + 1)).gStepEn = false := by
      rcases hinv k (by omega) with ⟨_, _, hlt⟩ | ⟨hf, _⟩
      · omega
      · exact hf
    have hex : ∃ m, (runEnableN tgt pos tms s m).gStepEn = false := ⟨k + 1, hk1⟩
    have hF := Nat.find_spec hex
    have hFle : Nat.find hex ≤ k + 1 := Nat.find_min' hex hk1
    have hFpos : 0 < Nat.find hex := by
      rcases Nat.eq_zero_or_pos (Nat.find hex) with h | h
      · exfalso
        have hs0 := Nat.find_spec hex
        rw [h] at hs0
        have hs0' : s.gStepEn = false := hs0
        rw [hen] at hs0'
        simp at hs0'
      · exact h
    refine ⟨Nat.find hex - 1, by omega, ?_, ?_⟩
    · intro i hi
      have hni := Nat.find_min hex (show i < Nat.find hex by omega)
      cases hb : (runEnableN tgt pos tms s i).gStepEn with
      | false => exact absurd hb hni
      | true => rfl
    · intro i hi
      exact runEnable_stay_false tgt pos tms s hh hr herr i (Nat.find hex)
        (by omega) hF
  · intro tm tu s hh hr hen hlt
    rw [updE_disabled_stay tm tu s hh hr hen hlt]
    exact hen
  · intro tm tu s hh hr hen hout
    rw [updE_enabled_outofband tm tu s hh hr hen hout]
    exact ⟨hen, rfl⟩

/-- C4 witness: a concrete two-iteration run (times 1 ms and 1601 ms,
error 0) that disables exactly once, a disabled state with error 5 that
stays disabled, and an enabled state with error 200 whose settle timer
is reset. -/
theorem C4_enable_disable_hysteresis_witness :
    (∃ j, j ≤ 1 ∧
      (∀ i, i ≤ j → (runEnableN (fun _ => 100) (fun _ => 100) (fun i => 1 + 1600 * i)
          { st0 with gStepEn := true } i).gStepEn = true) ∧
      (∀ i, j < i → (runEnableN (fun _ => 100) (fun _ => 100) (fun i => 1 + 1600 * i)
          { st0 with gStepEn := true } i).gStepEn = false)) ∧
    (updateStepperEnableFromError 3 3 { st0 with logStepTarget := 105 }).gStepEn = false ∧
    ((updateStepperEnableFromError 3 3 { st0 with gStepEn := true }).gStepEn = true ∧
     (updateStepperEnableFromError 3 3 { st0 with gStepEn := true }).gSettledSinceMs = 0) :=
  ⟨C4_enable_disable_hysteresis.1 (fun _ => 100) (fun _ => 100) (fun i => 1 + 1600 * i)
      { st0 with gStepEn := true } 1 rfl rfl rfl rfl
      (fun n => by show ((100 : Int) - 100).natAbs ≤ STEP_OFF_DEADBAND_LOG
                   norm_num [STEP_OFF_DEADBAND_LOG])
      (fun n hn => by show 1 + 1600 * n < 1 + 1600 * (n + 1); omega)
      le_rfl
      (fun n hn => by show 1 + 1600 * n < U32; unfold U32; omega)
      (by show STEP_IDLE_OFF_MS ≤ (1 + 1600 * 1) - (1 + 1600 * 0)
          norm_num [STEP_IDLE_OFF_MS]),
   C4_enable_disable_hysteresis.2.1 3 3 { st0 with logStepTarget := 105 } rfl rfl rfl
      (by norm_num [st0, STEP_ON_DEADBAND_LOG]),
   C4_enable_disable_hysteresis.2.2 3 3 { st0 with gStepEn := true } rfl rfl rfl
      (by norm_num [st0, STEP_OFF_DEADBAND_LOG])⟩
